import Mathlib

/-!
Verification of the virtual-memory management core of a minimal kernel
(`src/memory.rs` and its caller `src/main.rs`).

Data model:
* Physical and virtual addresses are modelled as `Nat` (the real code uses
  `u64`; physical addresses are below 2^52 and all address arithmetic here
  stays far below 2^64, so no wrap-around is reachable and `Nat` is faithful).
* A `PhysFrame` is identified by its start address.
* The firmware memory map is a list of `MemoryRegion` values
  `{start address, end address, region type}` as described by the spec's
  data model (the concrete boot-info type comes from an external crate).
* The region-list frame allocator (`BootInfoFrameAllocator`) is built over a
  lazy iterator in the source; it is modelled as the equivalent precomputed
  list with a cursor, which the spec's design notes call out as a
  behaviorally equivalent implementation of the same lazy sequence.
* The `Mapper` capability (`translate_page` / `map_to`) comes from the
  external `x86_64` crate, not from this repository; it is modelled from the
  spec's contract for the Active Page Table View (see `ActivePageTableView`).
-/

/-- A physical frame, identified by its 4096-aligned start address
(`PhysFrame<Size4KiB>` in the source). -/
structure PhysFrame where
  startAddress : Nat
deriving DecidableEq, Repr

/-- `PhysFrame::containing_address`: the frame containing a physical address,
i.e. the address rounded down to a multiple of 4096. -/
def PhysFrame.containing_address (addr : Nat) : PhysFrame :=
  ⟨addr / 4096 * 4096⟩

/-- `Page::containing_address`, represented by the page's start address:
the virtual address rounded down to a multiple of 4096. -/
def Page.containing_address (addr : Nat) : Nat :=
  addr / 4096 * 4096

/-- `VirtAddr::page_offset`: the offset of an address inside its page. -/
def pageOffset (addr : Nat) : Nat :=
  addr % 4096

/-- Region types of the firmware memory map.  The source only distinguishes
`Usable` from everything else; `Reserved` and `InUse` stand for the
non-usable variants exercised by the spec's scenarios. -/
inductive MemoryRegionType where
  | Usable
  | Reserved
  | InUse
deriving DecidableEq, Repr

/-- One firmware-reported memory region: `{start address, end address,
region type}` per the spec's data model.  `range_start` / `range_end` model
`r.range.start_addr()` / `r.range.end_addr()`; the region covers the
half-open address interval `[range_start, range_end)`. -/
structure MemoryRegion where
  range_start : Nat
  range_end : Nat
  region_type : MemoryRegionType
deriving DecidableEq, Repr

/-- The firmware memory map: an immutable list of regions. -/
abbrev MemoryMap := List MemoryRegion

/-- Rust's `(s..e).step_by(4096)`: the addresses `s, s+4096, s+2*4096, ...`
strictly below `e` (empty when `e ≤ s`). -/
def stepBy4096 (s e : Nat) : List Nat :=
  (List.range ((e - s + 4095) / 4096)).map (fun i => s + 4096 * i)

/-- The region-list frame allocator (`BootInfoFrameAllocator`).  The source
stores the not-yet-dispensed suffix of the lazy frame sequence as an
iterator; here it is the corresponding list. -/
structure BootInfoFrameAllocator where
  frames : List PhysFrame
deriving DecidableEq, Repr

/-- `init_frame_allocator`: keep the `Usable` regions of the memory map, map
each to its address range, flatten each range into addresses stepped by
4096, turn each address into the `PhysFrame` containing it. -/
def init_frame_allocator (memory_map : MemoryMap) : BootInfoFrameAllocator :=
  let regions := memory_map.filter (fun r => r.region_type == MemoryRegionType.Usable)
  let addr_ranges := regions.map (fun r => (r.range_start, r.range_end))
  let frame_addresses := addr_ranges.flatMap (fun r => stepBy4096 r.1 r.2)
  let frames := frame_addresses.map (fun addr => PhysFrame.containing_address addr)
  ⟨frames⟩

/-- The `FrameAllocator` trait: `allocate_frame(&mut self)` becomes explicit
state passing, returning the dispensed frame (or `none` for exhausted)
together with the updated allocator state. -/
class FrameAllocator (A : Type) where
  allocate_frame : A → Option PhysFrame × A

/-- `EmptyFrameAllocator`: a `FrameAllocator` that always returns `None`. -/
structure EmptyFrameAllocator where
deriving DecidableEq, Repr

instance : FrameAllocator EmptyFrameAllocator where
  allocate_frame a := (none, a)

instance : FrameAllocator BootInfoFrameAllocator where
  allocate_frame a :=
    match a.frames with
    | [] => (none, ⟨[]⟩)
    | f :: rest => (some f, ⟨rest⟩)

/-- The allocator state after `n` calls to `allocate_frame`. -/
def allocState {A : Type} [FrameAllocator A] (a : A) : Nat → A
  | 0 => a
  | n + 1 => (FrameAllocator.allocate_frame (allocState a n)).2

/-- The frame returned by the `(n+1)`-st call to `allocate_frame` (so `n = 0`
is the first call), `none` meaning the allocator reported exhausted. -/
def allocResult {A : Type} [FrameAllocator A] (a : A) (n : Nat) : Option PhysFrame :=
  (FrameAllocator.allocate_frame (allocState a n)).1

/-- Page-table entry flags.  The source uses `PRESENT | WRITABLE`; the two
bits are modelled explicitly and further bits are irrelevant to this core. -/
structure PageTableFlags where
  present : Bool
  writable : Bool
deriving DecidableEq, Repr

/-- `Flags::PRESENT | Flags::WRITABLE` as used by `create_example_mapping`. -/
def presentWritable : PageTableFlags :=
  ⟨true, true⟩

/-- `TranslateError` of the external mapper: the page is not mapped. -/
inductive TranslateError where
  | PageNotMapped
deriving DecidableEq, Repr

/-- `MapToError` of the external mapper: allocation of an intermediate page
table failed (allocator exhausted), or the page is already mapped. -/
inductive MapToError where
  | FrameAllocationFailed
  | PageAlreadyMapped
deriving DecidableEq, Repr

/-- The flush token returned by a successful `map_to`; it records which
page's translation-cache entry is to be flushed. -/
structure MapperFlush where
  page : Nat
deriving DecidableEq, Repr

/-- Modelled from the spec: the Active Page Table View (the `Mapper` /
`MappedPageTable` capability of the external `x86_64` crate, which is not
part of this repository's sources).  `level4Ptr` is the virtual pointer to
the root table obtained through the Offset Translator; `entries` is the
partial map from virtual page start addresses to `(frame, flags)` stored in
the hardware structure; `tables` records which intermediate-level page
tables exist, as `(level, index)` pairs. -/
structure ActivePageTableView where
  level4Ptr : Nat
  entries : List (Nat × (PhysFrame × PageTableFlags))
  tables : List (Nat × Nat)
deriving DecidableEq, Repr

/-- Modelled from the spec: `translate_page(virtual_page)` walks the
hierarchy for the page and returns the backing frame, or reports that no
mapping exists.  No side effect. -/
def ActivePageTableView.translate_page (m : ActivePageTableView) (page : Nat) :
    Except TranslateError PhysFrame :=
  match m.entries.lookup page with
  | some (f, _) => .ok f
  | none => .error .PageNotMapped

/-- The intermediate-level page tables a mapping of `page` needs, one per
level below the root: the level-3 table covering its 512 GiB slot, the
level-2 table covering its 1 GiB slot, and the level-1 table covering its
2 MiB slot. -/
def requiredTables (page : Nat) : List (Nat × Nat) :=
  [(3, page / 0x8000000000), (2, page / 0x40000000), (1, page / 0x200000)]

/-- Allocate a frame for each table in `missing` that is not already in
`tables`, pulling frames from the allocator; `none` when the allocator is
exhausted while a table is still needed. -/
def allocateMissingTables {A : Type} [FrameAllocator A] :
    List (Nat × Nat) → List (Nat × Nat) → A → Option (List (Nat × Nat) × A)
  | [], tables, alloc => some (tables, alloc)
  | t :: rest, tables, alloc =>
    if t ∈ tables then
      allocateMissingTables rest tables alloc
    else
      match FrameAllocator.allocate_frame alloc with
      | (none, _) => none
      | (some _, alloc') => allocateMissingTables rest (t :: tables) alloc'

/-- Modelled from the spec: `map_to(page, frame, flags, allocator)` installs
a mapping from `page` to `frame` with the given flags, allocating any absent
intermediate-level page-table frames via the supplied allocator.  It fails
when the allocator is exhausted while an intermediate table is needed, or
when the page already holds a mapping; on success it returns the flush token
for the page together with the updated view and allocator. -/
def ActivePageTableView.map_to {A : Type} [FrameAllocator A] (m : ActivePageTableView)
    (page : Nat) (frame : PhysFrame) (flags : PageTableFlags) (frame_allocator : A) :
    Except MapToError (MapperFlush × ActivePageTableView × A) :=
  match allocateMissingTables (requiredTables page) m.tables frame_allocator with
  | none => .error .FrameAllocationFailed
  | some (tables', alloc') =>
    match m.entries.lookup page with
    | some _ => .error .PageAlreadyMapped
    | none =>
      .ok (⟨page⟩, { m with entries := (page, (frame, flags)) :: m.entries, tables := tables' }, alloc')

/-- `translate_addr`: returns the physical address for the given virtual
address, or the translation error if the address is not mapped.  Splits the
address into its containing page, translates the page, and adds the in-page
offset back onto the frame's start address. -/
def translate_addr (addr : Nat) (mapper : ActivePageTableView) :
    Except TranslateError Nat :=
  let page := Page.containing_address addr
  let frame := mapper.translate_page page
  frame.map (fun frame => frame.startAddress + pageOffset addr)

/-- Outcome of running a kernel step: either the kernel halted (a panic that
printed a diagnostic and entered `hlt_loop`), or it is still running with
the given state. -/
inductive KernelOutcome (σ : Type) where
  | halted
  | running (s : σ)
deriving DecidableEq, Repr

/-- `create_example_mapping`: maps the page containing `0xdeadbeaf000` to the
frame containing `0xb8000` with `PRESENT | WRITABLE`, then
`.expect("map_to failed").flush()`: on success the flush token is consumed
(the flushed page is recorded in the outcome), on any failure the kernel
panics and halts. -/
def create_example_mapping {A : Type} [FrameAllocator A] (mapper : ActivePageTableView)
    (frame_allocator : A) : KernelOutcome (ActivePageTableView × A × Nat) :=
  let page := Page.containing_address 0xdeadbeaf000
  let frame := PhysFrame.containing_address 0xb8000
  let flags := presentWritable
  match mapper.map_to page frame flags frame_allocator with
  | .error _ => .halted
  | .ok (flush, mapper', alloc') => .running (mapper', alloc', flush.page)

/-- The `phys_to_virt` closure of `init`: the Offset Translator, mapping a
frame's physical start address to the virtual address at which it is
accessible. -/
def phys_to_virt (physical_memory_offset : Nat) (frame : PhysFrame) : Nat :=
  frame.startAddress + physical_memory_offset

/-- The hardware state `init` reads: the level-4 root frame currently held in
the CR3 control register, and the mappings / intermediate tables currently
stored in the hardware paging structure it points to. -/
structure HardwareState where
  cr3 : PhysFrame
  entries : List (Nat × (PhysFrame × PageTableFlags))
  tables : List (Nat × Nat)
deriving DecidableEq, Repr

/-- `init(physical_memory_offset)`: reads the root frame from CR3, converts
it to a virtual pointer through `phys_to_virt`, and wraps both into a
`MappedPageTable` view of the active address space.  Faithful to the source
signature, it consumes nothing but the offset (and reads the hardware
state): no one-shot token is taken, so nothing in the type prevents a second
invocation (the source carries a `TODO: call only once`). -/
def init (physical_memory_offset : Nat) (hw : HardwareState) : ActivePageTableView :=
  { level4Ptr := phys_to_virt physical_memory_offset hw.cr3,
    entries := hw.entries,
    tables := hw.tables }

/-- The views produced by calling `init` `n` times in a row on the same boot
offset and hardware state. -/
def viewsAfterInitCalls (n : Nat) (physical_memory_offset : Nat) (hw : HardwareState) :
    List ActivePageTableView :=
  (List.range n).map (fun _ => init physical_memory_offset hw)

/-- The memory map of the spec's allocator scenario:
`[{0x1000–0x3000, Usable}, {0x3000–0x4000, Reserved}, {0x4000–0x6000, Usable}]`. -/
def scenarioMap : MemoryMap :=
  [⟨0x1000, 0x3000, .Usable⟩, ⟨0x3000, 0x4000, .Reserved⟩, ⟨0x4000, 0x6000, .Usable⟩]

/-! ### Helper lemmas -/

theorem allocate_frame_boot (a : BootInfoFrameAllocator) :
    FrameAllocator.allocate_frame a = (a.frames.head?, ⟨a.frames.tail⟩) := by
  cases a with
  | mk frames => cases frames <;> rfl

theorem allocState_boot (a : BootInfoFrameAllocator) (n : Nat) :
    allocState a n = ⟨a.frames.drop n⟩ := by
  induction n with
  | zero => rfl
  | succ n ih =>
    show (FrameAllocator.allocate_frame (allocState a n)).2 = _
    rw [ih, allocate_frame_boot]
    show (⟨(a.frames.drop n).tail⟩ : BootInfoFrameAllocator) = _
    rw [List.tail_drop]

theorem allocResult_boot (a : BootInfoFrameAllocator) (n : Nat) :
    allocResult a n = a.frames[n]? := by
  show (FrameAllocator.allocate_frame (allocState a n)).1 = _
  rw [allocState_boot, allocate_frame_boot]
  show (a.frames.drop n).head? = _
  rw [List.head?_eq_getElem?, List.getElem?_drop]
  rfl

theorem mem_stepBy4096 {x s e : Nat} (h : x ∈ stepBy4096 s e) :
    ∃ i, x = s + 4096 * i ∧ s ≤ x ∧ x < e := by
  unfold stepBy4096 at h
  rw [List.mem_map] at h
  obtain ⟨i, hi, hx⟩ := h
  rw [List.mem_range] at hi
  refine ⟨i, hx.symm, ?_, ?_⟩
  · omega
  · have hdiv : (e - s + 4095) / 4096 * 4096 ≤ e - s + 4095 := Nat.div_mul_le_self _ _
    have hstep : (i + 1) * 4096 ≤ (e - s + 4095) / 4096 * 4096 :=
      Nat.mul_le_mul_right _ hi
    omega

theorem pairwise_stepBy4096 (s e : Nat) : (stepBy4096 s e).Pairwise (· < ·) := by
  unfold stepBy4096
  rw [List.pairwise_map]
  have h := List.pairwise_lt_range ((e - s + 4095) / 4096)
  exact h.imp (fun hij => by omega)

theorem roundDown_le (a : Nat) : a / 4096 * 4096 ≤ a :=
  Nat.div_mul_le_self a 4096

theorem roundDown_mono {a b : Nat} (h : a ≤ b) : a / 4096 * 4096 ≤ b / 4096 * 4096 :=
  Nat.mul_le_mul_right _ (Nat.div_le_div_right h)

theorem roundDown_aligned {s : Nat} (h : s % 4096 = 0) : s / 4096 * 4096 = s :=
  Nat.div_mul_cancel (Nat.dvd_of_mod_eq_zero h)

theorem pairwise_flatMap {α β : Type} {R : β → β → Prop} {g : α → List β} {L : List α}
    (h1 : ∀ r ∈ L, (g r).Pairwise R)
    (h2 : L.Pairwise (fun r1 r2 => ∀ x ∈ g r1, ∀ y ∈ g r2, R x y)) :
    (L.flatMap g).Pairwise R := by
  induction L with
  | nil => simp
  | cons a L ih =>
    rw [List.flatMap_cons, List.pairwise_append]
    rw [List.pairwise_cons] at h2
    refine ⟨h1 a (List.mem_cons_self a L), ih (fun r hr => h1 r (List.mem_cons_of_mem a hr)) h2.2, ?_⟩
    intro x hx y hy
    rw [List.mem_flatMap] at hy
    obtain ⟨r, hr, hyr⟩ := hy
    exact h2.1 r hr x hx y hyr

theorem init_frame_allocator_frames (memory_map : MemoryMap) :
    (init_frame_allocator memory_map).frames =
      ((memory_map.filter (fun r => r.region_type == MemoryRegionType.Usable)).flatMap
        (fun r => stepBy4096 r.range_start r.range_end)).map
        (fun addr => PhysFrame.containing_address addr) := by
  simp only [init_frame_allocator, List.flatMap_map]

/-- Dispensed frames all arise from an address inside a `Usable` region. -/
theorem frames_from_usable {memory_map : MemoryMap} {f : PhysFrame}
    (h : f ∈ (init_frame_allocator memory_map).frames) :
    ∃ r ∈ memory_map, r.region_type = MemoryRegionType.Usable ∧
      ∃ addr, r.range_start ≤ addr ∧ addr < r.range_end ∧
        f = PhysFrame.containing_address addr := by
  rw [init_frame_allocator_frames, List.mem_map] at h
  obtain ⟨addr, haddr, hf⟩ := h
  rw [List.mem_flatMap] at haddr
  obtain ⟨r, hr, hmem⟩ := haddr
  rw [List.mem_filter] at hr
  obtain ⟨i, _, hlo, hhi⟩ := mem_stepBy4096 hmem
  exact ⟨r, hr.1, by simpa using hr.2, addr, hlo, hhi, hf.symm⟩


theorem pairwise_mem_of_pairwise {α : Type} {R : α → α → Prop} (l : List α)
    (h : l.Pairwise R) : l.Pairwise (fun a b => a ∈ l ∧ b ∈ l ∧ R a b) := by
  rw [List.pairwise_iff_getElem] at h ⊢
  intro i j hi hj hij
  exact ⟨l.getElem_mem _, l.getElem_mem _, h i j hi hj hij⟩

/-- When the usable regions are listed in sorted, non-overlapping order, the
dispensed frame sequence is non-decreasing. -/
theorem frames_pairwise_le {memory_map : MemoryMap}
    (hsorted : (memory_map.filter (fun r => r.region_type == MemoryRegionType.Usable)).Pairwise
      (fun r1 r2 => r1.range_end ≤ r2.range_start)) :
    (init_frame_allocator memory_map).frames.Pairwise
      (fun f g => f.startAddress ≤ g.startAddress) := by
  rw [init_frame_allocator_frames, List.pairwise_map]
  apply pairwise_flatMap
  · intro r _
    refine (pairwise_stepBy4096 r.range_start r.range_end).imp ?_
    intro x y hxy
    show x / 4096 * 4096 ≤ y / 4096 * 4096
    exact roundDown_mono (Nat.le_of_lt hxy)
  · refine hsorted.imp ?_
    intro r1 r2 h12 x hx y hy
    obtain ⟨i, hxi, hxlo, hxhi⟩ := mem_stepBy4096 hx
    obtain ⟨j, hyj, hylo, hyhi⟩ := mem_stepBy4096 hy
    show x / 4096 * 4096 ≤ y / 4096 * 4096
    exact roundDown_mono (by omega)

/-- When the usable regions are pairwise disjoint and have 4096-aligned start
addresses, no frame is dispensed twice. -/
theorem frames_pairwise_ne {memory_map : MemoryMap}
    (haligned : ∀ r ∈ memory_map, r.region_type = MemoryRegionType.Usable →
      r.range_start % 4096 = 0)
    (hdisj : (memory_map.filter (fun r => r.region_type == MemoryRegionType.Usable)).Pairwise
      (fun r1 r2 => r1.range_end ≤ r2.range_start ∨ r2.range_end ≤ r1.range_start)) :
    (init_frame_allocator memory_map).frames.Pairwise (fun f g => f ≠ g) := by
  have haligned' : ∀ r ∈ memory_map.filter (fun r => r.region_type == MemoryRegionType.Usable),
      r.range_start % 4096 = 0 := by
    intro r hr
    rw [List.mem_filter] at hr
    exact haligned r hr.1 (by simpa using hr.2)
  rw [init_frame_allocator_frames, List.pairwise_map]
  apply pairwise_flatMap
  · intro r hr
    have hs := haligned' r hr
    unfold stepBy4096
    rw [List.pairwise_map]
    refine (List.pairwise_lt_range _).imp ?_
    intro i j hij
    show PhysFrame.containing_address _ ≠ PhysFrame.containing_address _
    simp only [PhysFrame.containing_address, ne_eq, PhysFrame.mk.injEq]
    omega
  · refine (pairwise_mem_of_pairwise _ hdisj).imp ?_
    rintro r1 r2 ⟨hm1, hm2, h12⟩ x hx y hy
    have hs1 := haligned' r1 hm1
    have hs2 := haligned' r2 hm2
    obtain ⟨i, hxi, hxlo, hxhi⟩ := mem_stepBy4096 hx
    obtain ⟨j, hyj, hylo, hyhi⟩ := mem_stepBy4096 hy
    show PhysFrame.containing_address _ ≠ PhysFrame.containing_address _
    simp only [PhysFrame.containing_address, ne_eq, PhysFrame.mk.injEq]
    rcases h12 with h | h <;> omega

/-! ### Claims -/

/-- Claim C3: on the memory-region list `[{0x1000–0x3000, Usable},
{0x3000–0x4000, Reserved}, {0x4000–0x6000, Usable}]`, successive
`allocate_frame` calls of the region-list allocator dispense the frames at
`0x1000`, `0x2000`, `0x4000`, `0x5000` in exactly that order, and every
subsequent call reports exhausted. -/
theorem claim_C3_scenario_allocation :
    allocResult (init_frame_allocator scenarioMap) 0 = some ⟨0x1000⟩ ∧
    allocResult (init_frame_allocator scenarioMap) 1 = some ⟨0x2000⟩ ∧
    allocResult (init_frame_allocator scenarioMap) 2 = some ⟨0x4000⟩ ∧
    allocResult (init_frame_allocator scenarioMap) 3 = some ⟨0x5000⟩ ∧
    ∀ n : Nat, allocResult (init_frame_allocator scenarioMap) (4 + n) = none := by
  refine ⟨rfl, rfl, rfl, rfl, ?_⟩
  intro n
  rw [allocResult_boot]
  apply List.getElem?_eq_none
  have hlen : (init_frame_allocator scenarioMap).frames.length = 4 := rfl
  omega

/-- Claim C8: for every input memory-region list, once an `allocate_frame`
call of the region-list allocator has reported exhausted, every subsequent
call on that instance also reports exhausted. -/
theorem claim_C8_exhausted_stays_exhausted (memory_map : MemoryMap) (n k : Nat)
    (h : allocResult (init_frame_allocator memory_map) n = none) :
    allocResult (init_frame_allocator memory_map) (n + k) = none := by
  rw [allocResult_boot] at h ⊢
  rw [List.getElem?_eq_none_iff] at h ⊢
  omega

/-- Witness for claim C8: the allocator over the single usable region
`[0x1000, 0x2000)` is exhausted after its first call (the second call
reports exhausted), and so does every later call, here the fifth. -/
theorem claim_C8_witness :
    allocResult (init_frame_allocator [⟨0x1000, 0x2000, .Usable⟩]) 1 = none ∧
    allocResult (init_frame_allocator [⟨0x1000, 0x2000, .Usable⟩]) 4 = none :=
  ⟨rfl, claim_C8_exhausted_stays_exhausted [⟨0x1000, 0x2000, .Usable⟩] 1 3 rfl⟩

/-- Claim C9: the null allocator's `allocate_frame` reports exhausted on
every call, for any number of calls and regardless of any prior calls. -/
theorem claim_C9_empty_allocator_always_exhausted (a : EmptyFrameAllocator) (n : Nat) :
    allocResult a n = none :=
  rfl

/-- Claim C10: every frame returned by the region-list allocator has a start
address that is a multiple of 4096, for every input memory-region list,
the stepped address being rounded down to its containing frame. -/
theorem claim_C10_frames_aligned (memory_map : MemoryMap) (n : Nat) (f : PhysFrame)
    (h : allocResult (init_frame_allocator memory_map) n = some f) :
    f.startAddress % 4096 = 0 := by
  rw [allocResult_boot] at h
  have hmem : f ∈ (init_frame_allocator memory_map).frames := List.getElem?_mem h
  obtain ⟨r, _, _, addr, _, _, hf⟩ := frames_from_usable hmem
  rw [hf]
  show addr / 4096 * 4096 % 4096 = 0
  exact Nat.mul_mod_left _ _

/-- Witness for claim C10: the usable region `[0x1800, 0x2800)` has an
unaligned start; the first dispensed frame is the containing frame `0x1000`,
whose start address is a multiple of 4096. -/
theorem claim_C10_witness :
    allocResult (init_frame_allocator [⟨0x1800, 0x2800, .Usable⟩]) 0 = some ⟨0x1000⟩ ∧
    (0x1000 : Nat) % 4096 = 0 :=
  ⟨rfl, claim_C10_frames_aligned [⟨0x1800, 0x2800, .Usable⟩] 0 ⟨0x1000⟩ rfl⟩

theorem lookup_cons_self {page : Nat} {x : PhysFrame × PageTableFlags}
    {t : List (Nat × (PhysFrame × PageTableFlags))} :
    List.lookup page ((page, x) :: t) = some x := by
  simp [List.lookup]

/-- Inversion of a successful `map_to`: the flush token names the mapped
page, the new view holds the new entry in front of the old ones, and the
page was previously unmapped. -/
theorem map_to_ok_inv {A : Type} [FrameAllocator A] {mapper : ActivePageTableView} {page : Nat}
    {f : PhysFrame} {flags : PageTableFlags} {alloc : A} {fl : MapperFlush}
    {mapper' : ActivePageTableView} {alloc' : A}
    (h : mapper.map_to page f flags alloc = .ok (fl, mapper', alloc')) :
    fl = ⟨page⟩ ∧ mapper'.entries = (page, (f, flags)) :: mapper.entries ∧
      mapper.entries.lookup page = none := by
  unfold ActivePageTableView.map_to at h
  split at h
  · exact Except.noConfusion h
  · split at h
    · exact Except.noConfusion h
    next hL =>
      simp only [Except.ok.injEq, Prod.mk.injEq] at h
      obtain ⟨hfl, hm, ha⟩ := h
      exact ⟨hfl.symm, by rw [← hm], hL⟩

theorem translate_page_of_lookup {m : ActivePageTableView} {page : Nat} {f : PhysFrame}
    {flags : PageTableFlags} (h : m.entries.lookup page = some (f, flags)) :
    m.translate_page page = .ok f := by
  unfold ActivePageTableView.translate_page
  rw [h]

/-- Claim C1: whenever `map_to` succeeds in installing a mapping of `v`'s
page to a physical frame `f`, an immediately following `translate_addr` on
any address `w` of that page returns `f`'s start address plus `w`'s in-page
offset, and that offset lies in `[0, 4096)`. -/
theorem claim_C1_map_then_translate {A : Type} [FrameAllocator A]
    (mapper : ActivePageTableView) (alloc : A) (v : Nat) (f : PhysFrame)
    (flags : PageTableFlags) (fl : MapperFlush) (mapper' : ActivePageTableView) (alloc' : A)
    (hmap : mapper.map_to (Page.containing_address v) f flags alloc = .ok (fl, mapper', alloc'))
    (w : Nat) (hw : Page.containing_address w = Page.containing_address v) :
    translate_addr w mapper' = .ok (f.startAddress + pageOffset w) ∧ pageOffset w < 4096 := by
  obtain ⟨hfl, hm, hnone⟩ := map_to_ok_inv hmap
  have hlook : mapper'.entries.lookup (Page.containing_address w) = some (f, flags) := by
    rw [hw, hm]
    exact lookup_cons_self
  have htp := translate_page_of_lookup hlook
  constructor
  · show (mapper'.translate_page (Page.containing_address w)).map
      (fun fr => fr.startAddress + pageOffset w) = _
    rw [htp]
    rfl
  · exact Nat.mod_lt _ (by norm_num)

/-- Witness for claim C1, the spec's scenario: on an empty view with a
three-frame allocator, mapping virtual page `0xdeadbeaf000` to the physical
frame at `0xb8000` succeeds, and translating `0xdeadbeaf00a` afterwards
yields `0xb800a`. -/
theorem claim_C1_witness :
    (ActivePageTableView.map_to ⟨0, [], []⟩ (Page.containing_address 0xdeadbeaf000)
      (PhysFrame.containing_address 0xb8000) presentWritable
      (⟨[⟨0x1000⟩, ⟨0x2000⟩, ⟨0x3000⟩]⟩ : BootInfoFrameAllocator) =
      .ok (⟨0xdeadbeaf000⟩,
        ⟨0, [(0xdeadbeaf000, (⟨0xb8000⟩, presentWritable))], [(1, 7296735), (2, 14251), (3, 27)]⟩,
        ⟨[]⟩)) ∧
    translate_addr 0xdeadbeaf00a
      ⟨0, [(0xdeadbeaf000, (⟨0xb8000⟩, presentWritable))], [(1, 7296735), (2, 14251), (3, 27)]⟩ =
      .ok 0xb800a :=
  ⟨rfl,
    (claim_C1_map_then_translate ⟨0, [], []⟩
      (⟨[⟨0x1000⟩, ⟨0x2000⟩, ⟨0x3000⟩]⟩ : BootInfoFrameAllocator) 0xdeadbeaf000
      (PhysFrame.containing_address 0xb8000) presentWritable ⟨0xdeadbeaf000⟩
      ⟨0, [(0xdeadbeaf000, (⟨0xb8000⟩, presentWritable))], [(1, 7296735), (2, 14251), (3, 27)]⟩
      ⟨[]⟩ (by rfl) 0xdeadbeaf00a rfl).1⟩

/-- Claim C7: `create_example_mapping` maps the fixed page containing
`0xdeadbeaf000` to the fixed frame containing `0xb8000` with
present+writable flags and flushes that page's translation-cache entry on
success; any `map_to` failure makes the kernel halt instead of returning an
error. -/
theorem claim_C7_create_example_mapping {A : Type} [FrameAllocator A]
    (mapper : ActivePageTableView) (alloc : A) :
    (∀ e : MapToError,
      mapper.map_to (Page.containing_address 0xdeadbeaf000)
        (PhysFrame.containing_address 0xb8000) presentWritable alloc = .error e →
      create_example_mapping mapper alloc = .halted) ∧
    (∀ (fl : MapperFlush) (mapper' : ActivePageTableView) (alloc' : A),
      mapper.map_to (Page.containing_address 0xdeadbeaf000)
        (PhysFrame.containing_address 0xb8000) presentWritable alloc = .ok (fl, mapper', alloc') →
      create_example_mapping mapper alloc = .running (mapper', alloc', fl.page) ∧
      fl.page = Page.containing_address 0xdeadbeaf000 ∧
      mapper'.translate_page (Page.containing_address 0xdeadbeaf000) =
        .ok (PhysFrame.containing_address 0xb8000) ∧
      mapper'.entries.lookup (Page.containing_address 0xdeadbeaf000) =
        some (PhysFrame.containing_address 0xb8000, presentWritable) ∧
      presentWritable.present = true ∧ presentWritable.writable = true) := by
  constructor
  · intro e h
    show (match mapper.map_to (Page.containing_address 0xdeadbeaf000)
        (PhysFrame.containing_address 0xb8000) presentWritable alloc with
      | .error _ => KernelOutcome.halted
      | .ok (flush, mapper', alloc') => .running (mapper', alloc', flush.page)) = .halted
    rw [h]
  · intro fl mapper' alloc' h
    obtain ⟨hfl, hm, _⟩ := map_to_ok_inv h
    have hlook : mapper'.entries.lookup (Page.containing_address 0xdeadbeaf000) =
        some (PhysFrame.containing_address 0xb8000, presentWritable) := by
      rw [hm]
      exact lookup_cons_self
    refine ⟨?_, by rw [hfl], translate_page_of_lookup hlook, hlook, rfl, rfl⟩
    show (match mapper.map_to (Page.containing_address 0xdeadbeaf000)
        (PhysFrame.containing_address 0xb8000) presentWritable alloc with
      | .error _ => KernelOutcome.halted
      | .ok (flush, mapper', alloc') => .running (mapper', alloc', flush.page)) =
      .running (mapper', alloc', fl.page)
    rw [h]

/-- Witness for claim C7: with an always-exhausted allocator and an empty
view, `map_to` cannot allocate the needed intermediate tables, and
`create_example_mapping` halts the kernel. -/
theorem claim_C7_witness :
    create_example_mapping (⟨0, [], []⟩ : ActivePageTableView) EmptyFrameAllocator.mk =
      .halted :=
  (claim_C7_create_example_mapping ⟨0, [], []⟩ EmptyFrameAllocator.mk).1
    .FrameAllocationFailed rfl

/-- Claim C6: `translate_addr` splits the address into page and in-page
offset, translates the page through the view, and when the page is mapped
returns the backing frame's start address plus the offset; when the page is
unmapped it reports the distinct unmapped outcome, which is never equal to a
successful translation (in particular not to `ok 0`). -/
theorem claim_C6_translate_addr_semantics (addr : Nat) (mapper : ActivePageTableView) :
    (∀ f : PhysFrame, mapper.translate_page (Page.containing_address addr) = .ok f →
      translate_addr addr mapper = .ok (f.startAddress + pageOffset addr) ∧
      pageOffset addr < 4096) ∧
    (mapper.translate_page (Page.containing_address addr) = .error .PageNotMapped →
      translate_addr addr mapper = .error .PageNotMapped ∧
      ∀ pa : Nat, translate_addr addr mapper ≠ .ok pa) := by
  constructor
  · intro f h
    refine ⟨?_, Nat.mod_lt _ (by norm_num)⟩
    show (mapper.translate_page (Page.containing_address addr)).map
      (fun fr => fr.startAddress + pageOffset addr) = _
    rw [h]
    rfl
  · intro h
    have he : translate_addr addr mapper = .error .PageNotMapped := by
      show (mapper.translate_page (Page.containing_address addr)).map
        (fun fr => fr.startAddress + pageOffset addr) = _
      rw [h]
      rfl
    refine ⟨he, fun pa hc => ?_⟩
    rw [he] at hc
    exact Except.noConfusion hc

/-- Witness for claim C6: on a view with no entries, translating `0x1234`
reports the unmapped outcome and in particular is not `ok 0`. -/
theorem claim_C6_witness :
    translate_addr 0x1234 (⟨0, [], []⟩ : ActivePageTableView) = .error .PageNotMapped ∧
    translate_addr 0x1234 (⟨0, [], []⟩ : ActivePageTableView) ≠ .ok 0 :=
  ⟨((claim_C6_translate_addr_semantics 0x1234 ⟨0, [], []⟩).2 rfl).1,
    ((claim_C6_translate_addr_semantics 0x1234 ⟨0, [], []⟩).2 rfl).2 0⟩

/-- Claim C2 (demonstration of the code bug): `init` consumes nothing but
the boot offset and the readable hardware state, so a second invocation is
possible and yields a second live view aliasing the same root-table pointer;
the source acknowledges the missing guard with `TODO: call only once`, and
`kernel_main` is merely disciplined enough to call it once. -/
theorem claim_C2_init_not_one_shot :
    viewsAfterInitCalls 2 0x180000000000 ⟨⟨0x1000⟩, [], []⟩ =
      [init 0x180000000000 ⟨⟨0x1000⟩, [], []⟩, init 0x180000000000 ⟨⟨0x1000⟩, [], []⟩] ∧
    (init 0x180000000000 ⟨⟨0x1000⟩, [], []⟩).level4Ptr =
      phys_to_virt 0x180000000000 ⟨0x1000⟩ :=
  ⟨rfl, rfl⟩

/-- Counterexample to claim C4 as stated: on the memory-region list that
lists the usable span `[0x1000, 0x2000)` twice, the first and the second
`allocate_frame` calls return the same frame `0x1000`. -/
theorem claim_C4_counterexample :
    allocResult (init_frame_allocator
      [⟨0x1000, 0x2000, .Usable⟩, ⟨0x1000, 0x2000, .Usable⟩]) 0 = some ⟨0x1000⟩ ∧
    allocResult (init_frame_allocator
      [⟨0x1000, 0x2000, .Usable⟩, ⟨0x1000, 0x2000, .Usable⟩]) 1 = some ⟨0x1000⟩ :=
  ⟨rfl, rfl⟩

/-- Claim C4 (amended): for every input list, every frame a successful
`allocate_frame` call returns comes from an address falling within a usable
region of the list (unconditionally); and when the usable regions of the
list are pairwise disjoint and have 4096-aligned start addresses, the
allocator never returns the same frame in two distinct calls. -/
theorem claim_C4_no_reuse_and_usable_origin (memory_map : MemoryMap)
    (i : Nat) (f : PhysFrame)
    (hi : allocResult (init_frame_allocator memory_map) i = some f) :
    (∃ r ∈ memory_map, r.region_type = MemoryRegionType.Usable ∧
      ∃ addr, r.range_start ≤ addr ∧ addr < r.range_end ∧
        f = PhysFrame.containing_address addr) ∧
    (∀ (j : Nat) (g : PhysFrame),
      (∀ r ∈ memory_map, r.region_type = MemoryRegionType.Usable →
        r.range_start % 4096 = 0) →
      (memory_map.filter (fun r => r.region_type == MemoryRegionType.Usable)).Pairwise
        (fun r1 r2 => r1.range_end ≤ r2.range_start ∨ r2.range_end ≤ r1.range_start) →
      i ≠ j → allocResult (init_frame_allocator memory_map) j = some g →
      f ≠ g) := by
  rw [allocResult_boot] at hi
  refine ⟨frames_from_usable (List.getElem?_mem hi), ?_⟩
  intro j g haligned hdisj hij hj
  have hpw := frames_pairwise_ne haligned hdisj
  rw [List.pairwise_iff_getElem] at hpw
  rw [allocResult_boot] at hj
  rw [List.getElem?_eq_some_iff] at hj
  have hi' := hi
  rw [List.getElem?_eq_some_iff] at hi'
  obtain ⟨hilt, hif⟩ := hi'
  obtain ⟨hjlt, hjg⟩ := hj
  rcases Nat.lt_or_ge i j with hlt | hge
  · rw [← hif, ← hjg]
    exact hpw i j hilt hjlt hlt
  · have hlt : j < i := by omega
    rw [← hif, ← hjg]
    exact (hpw j i hjlt hilt hlt).symm

/-- Witness for claim C4: on the scenario list the no-reuse part gives that
the first and second calls return distinct frames, with every hypothesis
(alignment, disjointness, distinct indices, both calls successful)
discharged concretely. -/
theorem claim_C4_witness :
    (⟨0x1000⟩ : PhysFrame) ≠ (⟨0x2000⟩ : PhysFrame) :=
  (claim_C4_no_reuse_and_usable_origin scenarioMap 0 ⟨0x1000⟩ rfl).2
    1 ⟨0x2000⟩ (by decide) (by decide) (by omega) rfl

/-- Counterexample to claim C5 as stated: when the usable regions are not in
address order, the dispensed frames are not non-decreasing — the first call
returns `0x4000`, the second `0x1000`. -/
theorem claim_C5_counterexample :
    allocResult (init_frame_allocator
      [⟨0x4000, 0x5000, .Usable⟩, ⟨0x1000, 0x2000, .Usable⟩]) 0 = some ⟨0x4000⟩ ∧
    allocResult (init_frame_allocator
      [⟨0x4000, 0x5000, .Usable⟩, ⟨0x1000, 0x2000, .Usable⟩]) 1 = some ⟨0x1000⟩ ∧
    ¬((0x4000 : Nat) ≤ 0x1000) :=
  ⟨rfl, rfl, by omega⟩

/-- Claim C5 (amended): when the usable regions of the input list appear in
non-decreasing address order (each earlier usable region ends no later than
a later one starts), successful `allocate_frame` calls return frames in
non-decreasing physical-address order. -/
theorem claim_C5_nondecreasing_of_sorted (memory_map : MemoryMap)
    (hsorted : (memory_map.filter (fun r => r.region_type == MemoryRegionType.Usable)).Pairwise
      (fun r1 r2 => r1.range_end ≤ r2.range_start))
    (i j : Nat) (f g : PhysFrame) (hij : i ≤ j)
    (hi : allocResult (init_frame_allocator memory_map) i = some f)
    (hj : allocResult (init_frame_allocator memory_map) j = some g) :
    f.startAddress ≤ g.startAddress := by
  have hpw := frames_pairwise_le hsorted
  rw [List.pairwise_iff_getElem] at hpw
  rw [allocResult_boot, List.getElem?_eq_some_iff] at hi hj
  obtain ⟨hilt, hif⟩ := hi
  obtain ⟨hjlt, hjg⟩ := hj
  rcases Nat.eq_or_lt_of_le hij with heq | hlt
  · subst heq
    rw [← hif, ← hjg]
  · rw [← hif, ← hjg]
    exact hpw i j hilt hjlt hlt

/-- Witness for claim C5: on the scenario list the first and third dispensed
frames are in non-decreasing order. -/
theorem claim_C5_witness :
    (⟨0x1000⟩ : PhysFrame).startAddress ≤ (⟨0x4000⟩ : PhysFrame).startAddress :=
  claim_C5_nondecreasing_of_sorted scenarioMap (by decide)
    0 2 ⟨0x1000⟩ ⟨0x4000⟩ (by omega) rfl rfl
